import Mathlib

/-!
Verification of spacegun's Kubernetes cluster binding and dashboard view.

This file gives a shallow embedding, in Lean, of the decision logic of
`KubernetesClusterRepository` (`minifyDeployment`, `needsUpdate`,
`createImage`, `getNamespace`, `isNamespaceAllowed`, `namespaces`,
`applySnapshot`) and of the dashboard `index` handler, and proves the
behavioural properties stated about them.

Modelling conventions:
* Gateway-native deployment objects are modelled as plain records.  The
  `JSON.stringify` comparison performed by `needsUpdate` is modelled as
  structural (decidable) equality of the minified records, which is faithful
  because both sides are built by the same constructor with a fixed field
  order and `undefined` fields are modelled as `Option.none`.
* JavaScript strings are modelled as `String`; `url.split(/@|:/)` and
  `split("/")` are modelled by `splitChars`, which mirrors the JS split
  semantics (separators dropped, empty fragments kept, at least one
  fragment returned).
* The Kubernetes API is modelled by its observable effects: the namespace
  listing is an input (a function from namespace to deployment list), a
  `replaceNamespacedDeployment` call stores the given body under the given
  name, and its possible failure is an oracle `fails : String → Bool`.
* The uncaught JavaScript `TypeError` thrown by
  `target.spec.template.spec.containers[0].image = ...` when the recorded
  target has no containers is modelled explicitly: the run is marked
  `crashed` and stops, keeping the partially updated state and emitting no
  event.
-/

namespace Spacegun

/-! ### Data model and operations, embedded from the source -/

/-- Models `@kubernetes/client-node`'s `V1Container` (the fields relevant to
the repository: the container image url, plus the container name as a stand-in
for the remaining container data carried through minification). -/
structure V1Container where
  name : String
  image : String
deriving DecidableEq, Repr

/-- Pod spec: the containers of the pod template. -/
structure V1PodSpec where
  containers : List V1Container
deriving DecidableEq, Repr

/-- Object metadata.  `nspace` models the `namespace` field (a Lean keyword);
`annots` models the `annotations` map as an ordered key/value list (JS object
key order is significant under `JSON.stringify`); `labels` stands for the
metadata fields that `minifyDeployment` drops. -/
structure V1ObjectMeta where
  name : Option String
  nspace : Option String
  annots : Option (List (String × String))
  labels : Option (List (String × String))
deriving DecidableEq, Repr

/-- Pod template spec: template metadata plus pod spec. -/
structure V1PodTemplateSpec where
  metadata : Option V1ObjectMeta
  spec : V1PodSpec
deriving DecidableEq, Repr

/-- Server-assigned deployment status (dropped by minification). -/
structure V1DeploymentStatus where
  availableReplicas : Option Nat
deriving DecidableEq, Repr

/-- Deployment spec (kept wholesale by minification). -/
structure V1DeploymentSpec where
  replicas : Option Nat
  template : V1PodTemplateSpec
deriving DecidableEq, Repr

/-- Models `V1beta2Deployment`: metadata, spec, and server-assigned status. -/
structure V1beta2Deployment where
  metadata : V1ObjectMeta
  spec : V1DeploymentSpec
  status : Option V1DeploymentStatus
deriving DecidableEq, Repr

/-- Models the repository's `Image` model: `{url, name, tag?}`. -/
structure Image where
  url : String
  name : String
  tag : Option String
deriving DecidableEq, Repr

/-- Models the repository's `ServerGroup` model: `{cluster, namespace?}`.
`nspace` models the optional `namespace` field. -/
structure ServerGroup where
  cluster : String
  nspace : Option String
deriving DecidableEq, Repr

/-- One snapshot entry: `{name, data}` with gateway-native minified data. -/
structure SnapshotDeployment where
  name : String
  data : V1beta2Deployment
deriving DecidableEq, Repr

/-- Models the repository's `ClusterSnapshot` model. -/
structure ClusterSnapshot where
  deployments : List SnapshotDeployment
deriving DecidableEq, Repr

/-- `KubernetesClusterRepository.minifyDeployment`: keep only the metadata
identity fields (name, namespace, annotations) and the spec; drop the other
metadata fields and the server-assigned status. -/
def minifyDeployment (deployment : V1beta2Deployment) : V1beta2Deployment :=
  { metadata :=
      { name := deployment.metadata.name
        nspace := deployment.metadata.nspace
        annots := deployment.metadata.annots
        labels := none }
    spec := deployment.spec
    status := none }

/-- `KubernetesClusterRepository.needsUpdate`: a missing current deployment
always needs an update; otherwise compare the minified target with the
minified current deployment (the source compares their `JSON.stringify`
serialisations, which coincides with structural equality here). -/
def needsUpdate (current : Option V1beta2Deployment) (target : V1beta2Deployment) : Bool :=
  match current with
  | none => true
  | some c => decide (minifyDeployment target ≠ minifyDeployment c)

/-- `KubernetesClusterRepository.getNamespace`: `group.namespace || "default"`.
The JS `||` also maps the empty string to `"default"`. -/
def getNamespace (group : ServerGroup) : String :=
  match group.nspace with
  | none => "default"
  | some s => if s = "" then "default" else s

/-- `KubernetesClusterRepository.isNamespaceAllowed`: allowed when no
allowed-namespaces list is configured, or when the list contains the
namespace. -/
def isNamespaceAllowed (allowedNamespaces : Option (List String)) (ns : String) : Bool :=
  match allowedNamespaces with
  | none => true
  | some l => (l.find? (fun n => n == ns)).isSome

/-- The pure content of `KubernetesClusterRepository.namespaces`: the supplier
passed to the TTL cache maps the namespace names reported by the cluster API
through the `isNamespaceAllowed` filter.  The cache (whose source is outside
this repository slice) is treated as a transparent memoisation of this
computation. -/
def namespacesOf (allowedNamespaces : Option (List String)) (reported : List String) :
    List String :=
  reported.filter (fun ns => isNamespaceAllowed allowedNamespaces ns)

/-- JS `String.prototype.split` on a character class: split the character list
at every separator, dropping separators and keeping (possibly empty)
fragments.  Always returns at least one fragment. -/
def splitChars (p : Char → Bool) : List Char → List (List Char)
  | [] => [[]]
  | c :: cs =>
    if p c then [] :: splitChars p cs
    else
      match splitChars p cs with
      | [] => [[c]]
      | g :: gs => (c :: g) :: gs

/-- String-level wrapper for `splitChars`, modelling `url.split(...)`. -/
def jsSplit (p : Char → Bool) (s : String) : List String :=
  (splitChars p s.data).map String.mk

/-- The separator class of `url.split(/@|:/)`. -/
def isColonAt (ch : Char) : Bool := ch == '@' || ch == ':'

/-- The separator of `.split("/")`. -/
def isSlash (ch : Char) : Bool := ch == '/'

/-- The name computation of `KubernetesClusterRepository.createImage` on a
container image url: truncate at the first `@` or `:`, then take the last
`/`-separated segment. -/
def codeImageName (url : String) : String :=
  (jsSplit isSlash ((jsSplit isColonAt url).headD "")).getLastD ""

/-- `KubernetesClusterRepository.createImage`: `undefined` on an empty
container list; otherwise the first container's image url together with the
derived name (`tag` is not set by the source). -/
def createImage (containers : List V1Container) : Option Image :=
  match containers with
  | [] => none
  | c :: _ =>
    let url := c.image
    let imageAndUrl := jsSplit isColonAt url
    let imageParts := jsSplit isSlash (imageAndUrl.headD "")
    let name := imageParts.getLastD ""
    some { url := url, name := name, tag := none }

/-- Image name as the spec words describe it: the url with its registry/path
front part (everything up to the last slash) stripped, and its digest or tag
tail (everything from the first colon or at-sign of the remaining segment)
stripped. -/
def specImageName (url : String) : String :=
  String.mk ((splitChars isColonAt ((splitChars isSlash url.data).getLastD [])).headD [])

/-- Does a deployment object carry the given name?  Models the comparison
`d.metadata.name === deployment.name` used by `applySnapshot`'s `find`. -/
def byName (n : String) (d : V1beta2Deployment) : Bool :=
  d.metadata.name == some n

/-- The in-place mutation `target.spec.template.spec.containers[0].image = u`
on a target whose container list is known non-empty. -/
def setFirstContainerImage (d : V1beta2Deployment) (u : String) : V1beta2Deployment :=
  { d with
    spec := { d.spec with
      template := { d.spec.template with
        spec := { d.spec.template.spec with
          containers :=
            match d.spec.template.spec.containers with
            | [] => []
            | c :: rest => { c with image := u } :: rest } } } }

/-- The `ignoreImage` block of `applySnapshot`: when the flag is set and the
deployment is present in the cluster, substitute the currently running image
url into the recorded target.  `Except.error ()` models the uncaught
JavaScript `TypeError` raised by the index assignment when the recorded
target has no containers. -/
def substituteImage (ignoreImage : Bool) (current : Option V1beta2Deployment)
    (target : V1beta2Deployment) : Except Unit V1beta2Deployment :=
  match ignoreImage, current with
  | true, some c =>
    match createImage c.spec.template.spec.containers with
    | some image =>
      match target.spec.template.spec.containers with
      | [] => Except.error ()
      | _ :: _ => Except.ok (setFirstContainerImage target image.url)
    | none => Except.ok target
  | true, none => Except.ok target
  | false, _ => Except.ok target

/-- One `replaceNamespacedDeployment(name, namespace, body)` call. -/
structure ReplaceCall where
  name : String
  body : V1beta2Deployment
deriving DecidableEq, Repr

/-- The mutable context of `applySnapshot`'s loop: the deployments stored in
the target namespace, the applied/errored aggregates, and the trace of
replace API calls issued so far. -/
structure LoopState where
  items : List V1beta2Deployment
  applied : List String
  errored : List String
  calls : List ReplaceCall
deriving Repr

/-- Effect of a successful `replaceNamespacedDeployment` on the stored
deployments: the first deployment carrying the given name is replaced by the
body; if none carries it, the body is stored as a new deployment. -/
def replaceFirst (items : List V1beta2Deployment) (n : String)
    (target : V1beta2Deployment) : List V1beta2Deployment :=
  match items with
  | [] => [target]
  | d :: rest => if byName n d then target :: rest else d :: replaceFirst rest n target

/-- One iteration of `applySnapshot`'s `for` loop over the snapshot entries.
`items0` is the deployment listing fetched once before the loop (used for the
`find`); `none` models the uncaught `TypeError` from the image substitution.
A failing replace call (the oracle `fails`) is caught and recorded in
`errored`; a successful one is recorded in `applied` and stores the target. -/
def stepEntry (ignoreImage : Bool) (fails : String → Bool)
    (items0 : List V1beta2Deployment) (st : LoopState) (e : SnapshotDeployment) :
    Option LoopState :=
  match substituteImage ignoreImage (items0.find? (byName e.name)) e.data with
  | Except.error _ => none
  | Except.ok target =>
    if needsUpdate (items0.find? (byName e.name)) target then
      if fails e.name then
        some { st with errored := st.errored ++ ["Deployment " ++ e.name]
                       calls := st.calls ++ [⟨e.name, target⟩] }
      else
        some { st with items := replaceFirst st.items e.name target
                       applied := st.applied ++ ["Deployment " ++ e.name]
                       calls := st.calls ++ [⟨e.name, target⟩] }
    else some st

/-- `applySnapshot`'s loop over the snapshot entries, in order.  The second
component records whether the loop was aborted by the uncaught `TypeError`. -/
def runEntries (ignoreImage : Bool) (fails : String → Bool)
    (items0 : List V1beta2Deployment) :
    List SnapshotDeployment → LoopState → LoopState × Bool
  | [], st => (st, false)
  | e :: rest, st =>
    match stepEntry ignoreImage fails items0 st e with
    | none => (st, true)
    | some st' => runEntries ignoreImage fails items0 rest st'

/-- One field of an Event Sink event (`{value, title}`). -/
structure EventField where
  value : String
  title : String
deriving DecidableEq, Repr

/-- An Event Sink event, as built by `applySnapshot`. -/
structure Event where
  message : String
  timestamp : Nat
  topics : List String
  description : String
  fields : List EventField
deriving DecidableEq, Repr

/-- The JS template literal rendering of the optional namespace in the event
description (`undefined` prints as the string "undefined"). -/
def optionNamespaceText (ns : Option String) : String :=
  match ns with
  | none => "undefined"
  | some s => s

/-- Everything observable about one `applySnapshot` call: whether it raised
the uncaught `TypeError`, the resulting cluster state (a map from namespace
to its stored deployments — partial updates are kept on a crash), the
applied/errored aggregates, the replace calls issued in order, and the event
emitted to the Event Sink (at most one; none on a crash). -/
structure ApplyOutcome where
  crashed : Bool
  finalState : String → List V1beta2Deployment
  applied : List String
  errored : List String
  calls : List ReplaceCall
  event : Option Event

/-- `KubernetesClusterRepository.applySnapshot`.  `state` maps each namespace
of the target cluster to its stored deployments; `fails` tells which replace
calls the API rejects; `now` is the clock read by `Date.now()`. -/
def applySnapshot (state : String → List V1beta2Deployment) (group : ServerGroup)
    (snapshot : ClusterSnapshot) (ignoreImage : Bool) (fails : String → Bool)
    (now : Nat) : ApplyOutcome :=
  let ns := getNamespace group
  let items0 := state ns
  let r := runEntries ignoreImage fails items0 snapshot.deployments ⟨items0, [], [], []⟩
  let st := r.1
  let crashed := r.2
  let event : Option Event :=
    if crashed then none
    else if st.applied.length + st.errored.length > 0 then
      some { message := "Applied Snapshots"
             timestamp := now
             topics := ["slack"]
             description :=
               "Applied Snapshots in " ++ group.cluster ++ " ∞ " ++
                 optionNamespaceText group.nspace
             fields := st.errored.map (fun v => ⟨v, "Failure"⟩) ++
               st.applied.map (fun v => ⟨v, "Success"⟩) }
    else none
  { crashed := crashed
    finalState := fun n => if n = ns then st.items else state n
    applied := st.applied
    errored := st.errored
    calls := st.calls
    event := event }

/-- The adjusted target for one snapshot entry: the recorded data, with the
running image substituted in when `ignoreImage` is set and the deployment is
present in the pre-fetched listing. -/
def targetOf (items0 : List V1beta2Deployment) (ig : Bool) (e : SnapshotDeployment) :
    Except Unit V1beta2Deployment :=
  substituteImage ig (items0.find? (byName e.name)) e.data

/-- Modelled from the spec: the replace call is needed exactly when the
deployment is absent from the target cluster or the minified target differs
structurally from the minified current deployment. -/
def specNeedsReplace (current : Option V1beta2Deployment) (target : V1beta2Deployment) : Bool :=
  match current with
  | none => true
  | some c => decide (minifyDeployment target ≠ minifyDeployment c)

/-- The replace call one entry gives rise to (none when skipped). -/
def callOf (items0 : List V1beta2Deployment) (ig : Bool) (e : SnapshotDeployment) :
    Option ReplaceCall :=
  match targetOf items0 ig e with
  | Except.error _ => none
  | Except.ok t =>
    if specNeedsReplace (items0.find? (byName e.name)) t then some ⟨e.name, t⟩ else none

/-- The `applied` record one entry gives rise to. -/
def appliedOf (items0 : List V1beta2Deployment) (ig : Bool) (fails : String → Bool)
    (e : SnapshotDeployment) : Option String :=
  match targetOf items0 ig e with
  | Except.error _ => none
  | Except.ok t =>
    if needsUpdate (items0.find? (byName e.name)) t && !fails e.name then
      some ("Deployment " ++ e.name)
    else none

/-- The `errored` record one entry gives rise to. -/
def erroredOf (items0 : List V1beta2Deployment) (ig : Bool) (fails : String → Bool)
    (e : SnapshotDeployment) : Option String :=
  match targetOf items0 ig e with
  | Except.error _ => none
  | Except.ok t =>
    if needsUpdate (items0.find? (byName e.name)) t && fails e.name then
      some ("Deployment " ++ e.name)
    else none

/-- What one entry leaves stored under its name after a successful run: the
adjusted target when a replace was issued, the untouched current deployment
when the entry was skipped. -/
def storedValue (items0 : List V1beta2Deployment) (ig : Bool)
    (e : SnapshotDeployment) : V1beta2Deployment :=
  match substituteImage ig (items0.find? (byName e.name)) e.data with
  | Except.ok t =>
    if needsUpdate (items0.find? (byName e.name)) t then t
    else (items0.find? (byName e.name)).getD e.data
  | Except.error _ => (items0.find? (byName e.name)).getD e.data

/-- A deployment fixture: name, replica count and containers, with the other
fields held fixed. -/
def exDeployment (nm : String) (replicas : Nat) (containers : List V1Container) :
    V1beta2Deployment :=
  { metadata := { name := some nm, nspace := some "default", annots := none, labels := none }
    spec := { replicas := some replicas
              template := { metadata := none, spec := { containers := containers } } }
    status := none }

/-- A cluster whose default namespace runs `api` at `registry/api:v1`. -/
def exStateV1 : String → List V1beta2Deployment :=
  fun _ => [exDeployment "api" 1 [⟨"c", "registry/api:v1"⟩]]

/-- A cluster whose default namespace has an `api` deployment with no
containers (hence no running image). -/
def exStateNoContainers : String → List V1beta2Deployment :=
  fun _ => [exDeployment "api" 1 []]

/-- A snapshot recording `api` at `registry/api:v2` with two replicas. -/
def exSnap : ClusterSnapshot :=
  ⟨[⟨"api", exDeployment "api" 2 [⟨"c", "registry/api:v2"⟩]⟩]⟩

/-- An example server group with no namespace set. -/
def exGroup : ServerGroup := ⟨"cluster1", none⟩

/-- A three-entry snapshot over an empty cluster, for failure isolation. -/
def exSnapABC : ClusterSnapshot :=
  ⟨[⟨"A", exDeployment "A" 1 [⟨"c", "r/A:v1"⟩]⟩,
    ⟨"B", exDeployment "B" 1 [⟨"c", "r/B:v1"⟩]⟩,
    ⟨"C", exDeployment "C" 1 [⟨"c", "r/C:v1"⟩]⟩]⟩

/-- An empty cluster. -/
def exStateEmpty : String → List V1beta2Deployment := fun _ => []

/-- The failure oracle rejecting exactly deployment `A`. -/
def exFailsA : String → Bool := fun nm => nm == "A"

/-- A pipeline as handed to the `schedules` call (identified by name). -/
structure PipelineDescription where
  name : String
deriving DecidableEq, Repr

/-- Cron metadata: last completed run and upcoming run timestamps. -/
structure Cron where
  lastRun : Option Nat
  nextRuns : List Nat
deriving DecidableEq, Repr

/-- One row of the dashboard's clusters table. -/
structure ClusterEntry where
  name : String
  namespaces : List String
deriving DecidableEq, Repr

/-- One row of the dashboard's jobs table (timestamps kept as read; the
`moment(..).toISOString()` formatting is presentation only). -/
structure JobEntry where
  pipeline : PipelineDescription
  lastRun : Option Nat
  nextRun : Option Nat
deriving DecidableEq, Repr

/-- The object returned by `Module.index`. -/
structure IndexView where
  clusters : Option (List ClusterEntry)
  jobs : Option (List JobEntry)
  images : Option (List String)
  errors : List String
deriving Repr

/-- The `lastRun` field computed for one pipeline row. -/
def cronLastRun (sched : Option Cron) : Option Nat :=
  match sched with
  | none => none
  | some s => s.lastRun

/-- The `nextRun` field computed for one pipeline row. -/
def cronNextRun (sched : Option Cron) : Option Nat :=
  match sched with
  | none => none
  | some s => s.nextRuns.head?

/-- The `for` loop of the clusters block: on the first failing `namespaces`
call the `catch` records one error and the partially built list is kept. -/
def clustersLoop (namespacesQ : String → Except String (List String)) :
    List String → List ClusterEntry → Option (List ClusterEntry) × List String
  | [], acc => (some acc, [])
  | c :: rest, acc =>
    match namespacesQ c with
    | Except.error e => (some acc, ["Clusters could not be loaded: " ++ e])
    | Except.ok ns => clustersLoop namespacesQ rest (acc ++ [⟨c, ns⟩])

/-- The clusters block of `Module.index`: `undefined` when the `clusters`
call itself fails. -/
def clustersSection (clustersQ : Except String (List String))
    (namespacesQ : String → Except String (List String)) :
    Option (List ClusterEntry) × List String :=
  match clustersQ with
  | Except.error e => (none, ["Clusters could not be loaded: " ++ e])
  | Except.ok cs => clustersLoop namespacesQ cs []

/-- The `for` loop of the jobs block. -/
def jobsLoop (schedulesQ : PipelineDescription → Except String (Option Cron)) :
    List PipelineDescription → List JobEntry → Option (List JobEntry) × List String
  | [], acc => (some acc, [])
  | pl :: rest, acc =>
    match schedulesQ pl with
    | Except.error e => (some acc, ["Jobs could not be loaded: " ++ e])
    | Except.ok sched =>
      jobsLoop schedulesQ rest (acc ++ [⟨pl, cronLastRun sched, cronNextRun sched⟩])

/-- The jobs block of `Module.index`. -/
def jobsSection (pipelinesQ : Except String (List PipelineDescription))
    (schedulesQ : PipelineDescription → Except String (Option Cron)) :
    Option (List JobEntry) × List String :=
  match pipelinesQ with
  | Except.error e => (none, ["Jobs could not be loaded: " ++ e])
  | Except.ok ps => jobsLoop schedulesQ ps []

/-- The images block of `Module.index`. -/
def imagesSection (imagesQ : Except String (List String)) :
    Option (List String) × List String :=
  match imagesQ with
  | Except.error e => (none, ["Images could not be loaded: " ++ e])
  | Except.ok l => (some l, [])

/-- `Module.index`: each sub-query's failure is caught in its own block; the
handler always returns a view, with the collected error messages. -/
def index (clustersQ : Except String (List String))
    (namespacesQ : String → Except String (List String))
    (pipelinesQ : Except String (List PipelineDescription))
    (schedulesQ : PipelineDescription → Except String (Option Cron))
    (imagesQ : Except String (List String)) : IndexView :=
  { clusters := (clustersSection clustersQ namespacesQ).1
    jobs := (jobsSection pipelinesQ schedulesQ).1
    images := (imagesSection imagesQ).1
    errors := (clustersSection clustersQ namespacesQ).2 ++
      (jobsSection pipelinesQ schedulesQ).2 ++ (imagesSection imagesQ).2 }

/-! ### Theorems -/

theorem createImage_cons (c : V1Container) (r : List V1Container) :
    createImage (c :: r) = some ⟨c.image, codeImageName c.image, none⟩ := rfl

theorem needsUpdate_self (d : V1beta2Deployment) : needsUpdate (some d) d = false := by
  simp [needsUpdate]

theorem substituteImage_false (current : Option V1beta2Deployment) (d : V1beta2Deployment) :
    substituteImage false current d = Except.ok d := by
  cases current <;> rfl

theorem substituteImage_none (d : V1beta2Deployment) :
    substituteImage true none d = Except.ok d := rfl

theorem substituteImage_noImage (c d : V1beta2Deployment)
    (h : createImage c.spec.template.spec.containers = none) :
    substituteImage true (some c) d = Except.ok d := by
  simp [substituteImage, h]

theorem substituteImage_subst (c d : V1beta2Deployment) (img : Image)
    (h : createImage c.spec.template.spec.containers = some img)
    (c0 : V1Container) (r : List V1Container)
    (hc : d.spec.template.spec.containers = c0 :: r) :
    substituteImage true (some c) d = Except.ok (setFirstContainerImage d img.url) := by
  simp [substituteImage, h, hc]

theorem substituteImage_crash (c d : V1beta2Deployment) (img : Image)
    (h : createImage c.spec.template.spec.containers = some img)
    (hc : d.spec.template.spec.containers = []) :
    substituteImage true (some c) d = Except.error () := by
  simp [substituteImage, h, hc]

theorem substituteImage_metadata (ig : Bool) (current : Option V1beta2Deployment)
    (d t : V1beta2Deployment) (h : substituteImage ig current d = Except.ok t) :
    t.metadata = d.metadata := by
  cases ig with
  | false => simp [substituteImage_false] at h; subst h; rfl
  | true =>
    cases current with
    | none => simp [substituteImage_none] at h; subst h; rfl
    | some c =>
      unfold substituteImage at h
      cases hci : createImage c.spec.template.spec.containers with
      | none => simp [hci] at h; subst h; rfl
      | some img =>
        cases hc : d.spec.template.spec.containers with
        | nil => simp [hci, hc] at h
        | cons c0 r =>
          simp [hci, hc] at h
          subst h
          rfl

theorem substituteImage_err_containers (ig : Bool) (current : Option V1beta2Deployment)
    (d : V1beta2Deployment) (x : Unit) (h : substituteImage ig current d = Except.error x) :
    d.spec.template.spec.containers = [] := by
  cases ig with
  | false => simp [substituteImage_false] at h
  | true =>
    cases current with
    | none => simp [substituteImage_none] at h
    | some c =>
      unfold substituteImage at h
      cases hci : createImage c.spec.template.spec.containers with
      | none => simp [hci] at h
      | some img =>
        cases hc : d.spec.template.spec.containers with
        | nil => rfl
        | cons c0 r => simp [hci, hc] at h

theorem createImage_ne_nil (l : List V1Container) (img : Image)
    (h : createImage l = some img) : l ≠ [] := by
  cases l with
  | nil => simp [createImage] at h
  | cons c r => simp

theorem createImage_shape (l : List V1Container) (img : Image)
    (h : createImage l = some img) : img = ⟨img.url, codeImageName img.url, none⟩ := by
  cases l with
  | nil => simp [createImage] at h
  | cons c r =>
    rw [createImage_cons] at h
    cases h
    rfl

theorem setFirstContainerImage_containers (d : V1beta2Deployment) (u : String)
    (c0 : V1Container) (r : List V1Container)
    (h : d.spec.template.spec.containers = c0 :: r) :
    (setFirstContainerImage d u).spec.template.spec.containers =
      { c0 with image := u } :: r := by
  simp [setFirstContainerImage, h]

theorem setFirstContainerImage_metadata (d : V1beta2Deployment) (u : String) :
    (setFirstContainerImage d u).metadata = d.metadata := rfl

theorem setFirstContainerImage_self (d : V1beta2Deployment)
    (c0 : V1Container) (r : List V1Container)
    (h : d.spec.template.spec.containers = c0 :: r) :
    setFirstContainerImage d c0.image = d := by
  obtain ⟨m, ⟨rep, ⟨tm, ⟨cont⟩⟩⟩, s⟩ := d
  simp only at h
  subst h
  cases c0
  rfl

theorem createImage_setFirst (d : V1beta2Deployment) (u : String)
    (c0 : V1Container) (r : List V1Container)
    (h : d.spec.template.spec.containers = c0 :: r) :
    createImage (setFirstContainerImage d u).spec.template.spec.containers =
      some ⟨u, codeImageName u, none⟩ := by
  rw [setFirstContainerImage_containers d u c0 r h, createImage_cons]

theorem byName_eq_true (n : String) (d : V1beta2Deployment) :
    byName n d = true ↔ d.metadata.name = some n := by
  simp [byName]

theorem byName_eq_false (n : String) (d : V1beta2Deployment) :
    byName n d = false ↔ d.metadata.name ≠ some n := by
  simp [byName]

theorem replaceFirst_find_other (items : List V1beta2Deployment) (m n : String)
    (target : V1beta2Deployment) (hmn : m ≠ n) (ht : byName n target = false) :
    (replaceFirst items m target).find? (byName n) = items.find? (byName n) := by
  induction items with
  | nil => simp [replaceFirst, List.find?, ht]
  | cons d rest ih =>
    by_cases hd : byName m d = true
    · have hdn : byName n d = false := by
        rw [byName_eq_true] at hd
        rw [byName_eq_false, hd]
        intro hcon
        exact hmn (by injection hcon)
      simp [replaceFirst, hd, List.find?, ht, hdn]
    · rw [Bool.not_eq_true] at hd
      simp only [replaceFirst, hd, Bool.false_eq_true, if_false]
      cases hdn : byName n d with
      | true => simp [List.find?, hdn]
      | false => simp [List.find?, hdn, ih]

theorem replaceFirst_find_self (items : List V1beta2Deployment) (n : String)
    (target : V1beta2Deployment) (ht : byName n target = true) :
    (replaceFirst items n target).find? (byName n) = some target := by
  induction items with
  | nil => simp [replaceFirst, List.find?, ht]
  | cons d rest ih =>
    cases hd : byName n d with
    | true => simp [replaceFirst, hd, List.find?, ht]
    | false => simp [replaceFirst, hd, List.find?, ih]

theorem replaceFirst_mem (items : List V1beta2Deployment) (n : String)
    (target x : V1beta2Deployment) (hx : x ∈ replaceFirst items n target) :
    x = target ∨ x ∈ items := by
  induction items with
  | nil =>
    simp [replaceFirst] at hx
    exact Or.inl hx
  | cons d rest ih =>
    by_cases hd : byName n d = true
    · simp only [replaceFirst, hd, if_true] at hx
      rcases List.mem_cons.mp hx with h | h
      · exact Or.inl h
      · exact Or.inr (List.mem_cons_of_mem d h)
    · rw [Bool.not_eq_true] at hd
      simp only [replaceFirst, hd, Bool.false_eq_true, if_false] at hx
      rcases List.mem_cons.mp hx with h | h
      · exact Or.inr (h ▸ List.mem_cons_self d rest)
      · rcases ih h with h' | h'
        · exact Or.inl h'
        · exact Or.inr (List.mem_cons_of_mem d h')

theorem find?_eq_of_nodup (items : List V1beta2Deployment) (d : V1beta2Deployment)
    (n : String) (hnod : (items.map (fun x => x.metadata.name)).Nodup)
    (hmem : d ∈ items) (hname : d.metadata.name = some n) :
    items.find? (byName n) = some d := by
  induction items with
  | nil => simp at hmem
  | cons d' rest ih =>
    rw [List.map_cons, List.nodup_cons] at hnod
    cases hd' : byName n d' with
    | true =>
      rw [byName_eq_true] at hd'
      rcases List.mem_cons.mp hmem with h | h
      · simp [List.find?, byName, hd', h]
      · exfalso
        apply hnod.1
        rw [hd', ← hname]
        exact List.mem_map_of_mem (fun x => x.metadata.name) h
    | false =>
      have hne : d ≠ d' := by
        intro h
        rw [byName_eq_false, ← h, hname] at hd'
        exact hd' rfl
      rcases List.mem_cons.mp hmem with h | h
      · exact absurd h hne
      · simp only [List.find?, hd']
        exact ih hnod.2 h

theorem eq_of_mem_name_nodup (items : List V1beta2Deployment)
    (d₁ d₂ : V1beta2Deployment) (n : String)
    (hnod : (items.map (fun x => x.metadata.name)).Nodup)
    (h₁ : d₁ ∈ items) (h₂ : d₂ ∈ items)
    (hn₁ : d₁.metadata.name = some n) (hn₂ : d₂.metadata.name = some n) : d₁ = d₂ := by
  have e₁ := find?_eq_of_nodup items d₁ n hnod h₁ hn₁
  have e₂ := find?_eq_of_nodup items d₂ n hnod h₂ hn₂
  rw [e₁] at e₂
  injection e₂

theorem needsUpdate_eq_specNeedsReplace : needsUpdate = specNeedsReplace := rfl

theorem stepEntry_crash (ig : Bool) (f : String → Bool)
    (items0 : List V1beta2Deployment) (st : LoopState) (e : SnapshotDeployment)
    (x : Unit) (h : substituteImage ig (items0.find? (byName e.name)) e.data =
      Except.error x) :
    stepEntry ig f items0 st e = none := by
  simp [stepEntry, h]

theorem stepEntry_skip (ig : Bool) (f : String → Bool)
    (items0 : List V1beta2Deployment) (st : LoopState) (e : SnapshotDeployment)
    (t : V1beta2Deployment)
    (h : substituteImage ig (items0.find? (byName e.name)) e.data = Except.ok t)
    (hnu : needsUpdate (items0.find? (byName e.name)) t = false) :
    stepEntry ig f items0 st e = some st := by
  simp [stepEntry, h, hnu]

theorem stepEntry_fail (ig : Bool) (f : String → Bool)
    (items0 : List V1beta2Deployment) (st : LoopState) (e : SnapshotDeployment)
    (t : V1beta2Deployment)
    (h : substituteImage ig (items0.find? (byName e.name)) e.data = Except.ok t)
    (hnu : needsUpdate (items0.find? (byName e.name)) t = true)
    (hf : f e.name = true) :
    stepEntry ig f items0 st e =
      some { st with errored := st.errored ++ ["Deployment " ++ e.name]
                     calls := st.calls ++ [⟨e.name, t⟩] } := by
  simp [stepEntry, h, hnu, hf]

theorem stepEntry_replace (ig : Bool) (f : String → Bool)
    (items0 : List V1beta2Deployment) (st : LoopState) (e : SnapshotDeployment)
    (t : V1beta2Deployment)
    (h : substituteImage ig (items0.find? (byName e.name)) e.data = Except.ok t)
    (hnu : needsUpdate (items0.find? (byName e.name)) t = true)
    (hf : f e.name = false) :
    stepEntry ig f items0 st e =
      some { st with items := replaceFirst st.items e.name t
                     applied := st.applied ++ ["Deployment " ++ e.name]
                     calls := st.calls ++ [⟨e.name, t⟩] } := by
  simp [stepEntry, h, hnu, hf]

theorem runEntries_cons_none (ig : Bool) (f : String → Bool)
    (items0 : List V1beta2Deployment) (e : SnapshotDeployment)
    (rest : List SnapshotDeployment) (st : LoopState)
    (hstep : stepEntry ig f items0 st e = none) :
    runEntries ig f items0 (e :: rest) st = (st, true) := by
  simp [runEntries, hstep]

theorem runEntries_cons_some (ig : Bool) (f : String → Bool)
    (items0 : List V1beta2Deployment) (e : SnapshotDeployment)
    (rest : List SnapshotDeployment) (st st' : LoopState)
    (hstep : stepEntry ig f items0 st e = some st') :
    runEntries ig f items0 (e :: rest) st = runEntries ig f items0 rest st' := by
  simp [runEntries, hstep]

theorem runEntries_append (ig : Bool) (f : String → Bool)
    (items0 : List V1beta2Deployment) (xs ys : List SnapshotDeployment) (st : LoopState) :
    runEntries ig f items0 (xs ++ ys) st =
      (let r := runEntries ig f items0 xs st
       if r.2 then r else runEntries ig f items0 ys r.1) := by
  induction xs generalizing st with
  | nil => simp [runEntries]
  | cons e xs ih =>
    rw [List.cons_append]
    cases hstep : stepEntry ig f items0 st e with
    | none =>
      rw [runEntries_cons_none ig f items0 e (xs ++ ys) st hstep,
        runEntries_cons_none ig f items0 e xs st hstep]
      simp
    | some st' =>
      rw [runEntries_cons_some ig f items0 e (xs ++ ys) st st' hstep,
        runEntries_cons_some ig f items0 e xs st st' hstep]
      exact ih st'

theorem runEntries_no_crash_sub (ig : Bool) (f : String → Bool)
    (items0 : List V1beta2Deployment) (entries : List SnapshotDeployment)
    (st₀ : LoopState) (hnc : (runEntries ig f items0 entries st₀).2 = false) :
    ∀ e ∈ entries, ∃ t, substituteImage ig (items0.find? (byName e.name)) e.data =
      Except.ok t := by
  induction entries generalizing st₀ with
  | nil => intro e he; simp at he
  | cons e' rest ih =>
    intro e he
    cases hsub : substituteImage ig (items0.find? (byName e'.name)) e'.data with
    | error x =>
      rw [runEntries_cons_none ig f items0 e' rest st₀
        (stepEntry_crash ig f items0 st₀ e' x hsub)] at hnc
      simp at hnc
    | ok t =>
      rcases List.mem_cons.mp he with h | h
      · exact h ▸ ⟨t, hsub⟩
      · cases hstep : stepEntry ig f items0 st₀ e' with
        | none =>
          rw [runEntries_cons_none ig f items0 e' rest st₀ hstep] at hnc
          simp at hnc
        | some st' =>
          rw [runEntries_cons_some ig f items0 e' rest st₀ st' hstep] at hnc
          exact ih st' hnc e h

theorem runEntries_char (ig : Bool) (fails : String → Bool)
    (items0 : List V1beta2Deployment) (entries : List SnapshotDeployment)
    (st : LoopState) (hnc : (runEntries ig fails items0 entries st).2 = false) :
    (runEntries ig fails items0 entries st).1.applied =
        st.applied ++ entries.filterMap (appliedOf items0 ig fails) ∧
    (runEntries ig fails items0 entries st).1.errored =
        st.errored ++ entries.filterMap (erroredOf items0 ig fails) ∧
    (runEntries ig fails items0 entries st).1.calls =
        st.calls ++ entries.filterMap (callOf items0 ig) := by
  induction entries generalizing st with
  | nil => simp [runEntries]
  | cons e rest ih =>
    cases hsub : substituteImage ig (items0.find? (byName e.name)) e.data with
    | error x =>
      rw [runEntries_cons_none ig fails items0 e rest st
        (stepEntry_crash ig fails items0 st e x hsub)] at hnc
      simp at hnc
    | ok t =>
      have hao : appliedOf items0 ig fails e =
          (if needsUpdate (items0.find? (byName e.name)) t && !fails e.name then
            some ("Deployment " ++ e.name) else none) := by
        simp [appliedOf, targetOf, hsub]
      have heo : erroredOf items0 ig fails e =
          (if needsUpdate (items0.find? (byName e.name)) t && fails e.name then
            some ("Deployment " ++ e.name) else none) := by
        simp [erroredOf, targetOf, hsub]
      have hco : callOf items0 ig e =
          (if needsUpdate (items0.find? (byName e.name)) t then
            some (⟨e.name, t⟩ : ReplaceCall) else none) := by
        simp [callOf, targetOf, hsub, ← needsUpdate_eq_specNeedsReplace]
      cases hnu : needsUpdate (items0.find? (byName e.name)) t with
      | false =>
        rw [runEntries_cons_some ig fails items0 e rest st st
          (stepEntry_skip ig fails items0 st e t hsub hnu)] at hnc ⊢
        obtain ⟨ha, he', hc⟩ := ih st hnc
        rw [List.filterMap_cons, List.filterMap_cons, List.filterMap_cons,
          hao, heo, hco, hnu]
        simp only [Bool.false_and, Bool.false_eq_true, if_false]
        exact ⟨ha, he', hc⟩
      | true =>
        cases hf : fails e.name with
        | true =>
          rw [runEntries_cons_some ig fails items0 e rest st _
            (stepEntry_fail ig fails items0 st e t hsub hnu hf)] at hnc ⊢
          obtain ⟨ha, he', hc⟩ := ih _ hnc
          rw [List.filterMap_cons, List.filterMap_cons, List.filterMap_cons,
            hao, heo, hco, hnu, hf]
          simp only [Bool.true_and, Bool.and_true, Bool.not_true, Bool.and_false,
            Bool.false_eq_true, if_false, if_true]
          rw [ha, he', hc]
          simp [List.append_assoc]
        | false =>
          rw [runEntries_cons_some ig fails items0 e rest st _
            (stepEntry_replace ig fails items0 st e t hsub hnu hf)] at hnc ⊢
          obtain ⟨ha, he', hc⟩ := ih _ hnc
          rw [List.filterMap_cons, List.filterMap_cons, List.filterMap_cons,
            hao, heo, hco, hnu, hf]
          simp only [Bool.true_and, Bool.and_true, Bool.not_false, Bool.and_false,
            Bool.false_eq_true, if_false, if_true]
          rw [ha, he', hc]
          simp [List.append_assoc]

theorem runEntries_no_crash_of_containers (ig : Bool) (f : String → Bool)
    (items0 : List V1beta2Deployment) (entries : List SnapshotDeployment)
    (hc : ∀ e ∈ entries, e.data.spec.template.spec.containers ≠ []) :
    ∀ st, (runEntries ig f items0 entries st).2 = false := by
  induction entries with
  | nil => intro st; simp [runEntries]
  | cons e rest ih =>
    intro st
    cases hsub : substituteImage ig (items0.find? (byName e.name)) e.data with
    | error x =>
      exact absurd (substituteImage_err_containers ig _ e.data x hsub)
        (hc e (List.mem_cons_self e rest))
    | ok t =>
      have hrest : ∀ e' ∈ rest, e'.data.spec.template.spec.containers ≠ [] :=
        fun e' h => hc e' (List.mem_cons_of_mem e h)
      cases hnu : needsUpdate (items0.find? (byName e.name)) t with
      | false =>
        rw [runEntries_cons_some ig f items0 e rest st st
          (stepEntry_skip ig f items0 st e t hsub hnu)]
        exact ih hrest st
      | true =>
        cases hf : f e.name with
        | true =>
          rw [runEntries_cons_some ig f items0 e rest st _
            (stepEntry_fail ig f items0 st e t hsub hnu hf)]
          exact ih hrest _
        | false =>
          rw [runEntries_cons_some ig f items0 e rest st _
            (stepEntry_replace ig f items0 st e t hsub hnu hf)]
          exact ih hrest _

/-- Names never mentioned by the processed entries keep their `find?` result
through the loop. -/
theorem runEntries_find_untouched (ig : Bool) (f : String → Bool)
    (items0 : List V1beta2Deployment) (entries : List SnapshotDeployment)
    (st : LoopState) (n : String)
    (hn : n ∉ entries.map SnapshotDeployment.name)
    (hd : ∀ e ∈ entries, e.data.metadata.name = some e.name) :
    (runEntries ig f items0 entries st).1.items.find? (byName n) =
      st.items.find? (byName n) := by
  induction entries generalizing st with
  | nil => simp [runEntries]
  | cons e rest ih =>
    rw [List.map_cons, List.mem_cons] at hn
    push_neg at hn
    obtain ⟨hne, hnr⟩ := hn
    have hdr : ∀ e' ∈ rest, e'.data.metadata.name = some e'.name :=
      fun e' h => hd e' (List.mem_cons_of_mem e h)
    cases hsub : substituteImage ig (items0.find? (byName e.name)) e.data with
    | error x =>
      rw [runEntries_cons_none ig f items0 e rest st
        (stepEntry_crash ig f items0 st e x hsub)]
    | ok t =>
      have hmeta : t.metadata = e.data.metadata :=
        substituteImage_metadata ig _ e.data t hsub
      have htname : byName n t = false := by
        rw [byName_eq_false, hmeta, hd e (List.mem_cons_self e rest)]
        intro hcon
        injection hcon with h
        exact hne h.symm
      cases hnu : needsUpdate (items0.find? (byName e.name)) t with
      | false =>
        rw [runEntries_cons_some ig f items0 e rest st st
          (stepEntry_skip ig f items0 st e t hsub hnu)]
        exact ih _ hnr hdr
      | true =>
        cases hf : f e.name with
        | true =>
          rw [runEntries_cons_some ig f items0 e rest st _
            (stepEntry_fail ig f items0 st e t hsub hnu hf)]
          exact ih _ hnr hdr
        | false =>
          rw [runEntries_cons_some ig f items0 e rest st _
            (stepEntry_replace ig f items0 st e t hsub hnu hf)]
          rw [ih _ hnr hdr]
          exact replaceFirst_find_other st.items e.name n t
            (fun h => hne h.symm) htname

/-- After a crash-free run with no API failures, each entry's name finds the
value `storedValue` predicts. -/
theorem runEntries_find_processed (ig : Bool) (items0 : List V1beta2Deployment)
    (entries : List SnapshotDeployment) (st₀ : LoopState)
    (hst : st₀.items = items0)
    (h1 : (entries.map SnapshotDeployment.name).Nodup)
    (h2 : ∀ e ∈ entries, e.data.metadata.name = some e.name)
    (hnc : (runEntries ig (fun _ => false) items0 entries st₀).2 = false)
    (e : SnapshotDeployment) (he : e ∈ entries) :
    (runEntries ig (fun _ => false) items0 entries st₀).1.items.find? (byName e.name) =
      some (storedValue items0 ig e) := by
  obtain ⟨pre, post, rfl⟩ := List.append_of_mem he
  have hmaps : (pre ++ e :: post).map SnapshotDeployment.name =
      pre.map SnapshotDeployment.name ++ e.name :: post.map SnapshotDeployment.name := by
    simp
  rw [hmaps] at h1
  have hnotpre : e.name ∉ pre.map SnapshotDeployment.name := by
    intro h
    rcases List.nodup_append.mp h1 with ⟨_, _, hdisj⟩
    exact hdisj h (List.mem_cons_self _ _)
  have hnotpost : e.name ∉ post.map SnapshotDeployment.name := by
    rcases List.nodup_append.mp h1 with ⟨_, hcons, _⟩
    exact (List.nodup_cons.mp hcons).1
  have happ := runEntries_append ig (fun _ => false) items0 pre (e :: post) st₀
  cases hpre : (runEntries ig (fun _ => false) items0 pre st₀).2 with
  | true =>
    rw [happ] at hnc
    simp only [hpre, if_true] at hnc
    exact absurd hnc (by simp)
  | false =>
    rw [happ] at hnc ⊢
    simp only [hpre, Bool.false_eq_true, if_false] at hnc ⊢
    set stPre := (runEntries ig (fun _ => false) items0 pre st₀).1 with hstPre
    have hfindPre : stPre.items.find? (byName e.name) = items0.find? (byName e.name) := by
      rw [hstPre]
      rw [runEntries_find_untouched ig (fun _ => false) items0 pre st₀ e.name hnotpre
        (fun e' h => h2 e' (List.mem_append_left _ h))]
      rw [hst]
    have h2e : e.data.metadata.name = some e.name :=
      h2 e (List.mem_append_right _ (List.mem_cons_self _ _))
    have h2post : ∀ e' ∈ post, e'.data.metadata.name = some e'.name :=
      fun e' h => h2 e' (List.mem_append_right _ (List.mem_cons_of_mem _ h))
    cases hsub : substituteImage ig (items0.find? (byName e.name)) e.data with
    | error x =>
      rw [runEntries_cons_none ig (fun _ => false) items0 e post stPre
        (stepEntry_crash ig (fun _ => false) items0 stPre e x hsub)] at hnc
      simp at hnc
    | ok t =>
      have hsv : storedValue items0 ig e =
          (if needsUpdate (items0.find? (byName e.name)) t then t
           else (items0.find? (byName e.name)).getD e.data) := by
        simp [storedValue, hsub]
      cases hnu : needsUpdate (items0.find? (byName e.name)) t with
      | false =>
        rw [runEntries_cons_some ig (fun _ => false) items0 e post stPre stPre
          (stepEntry_skip ig (fun _ => false) items0 stPre e t hsub hnu)]
        rw [runEntries_find_untouched ig (fun _ => false) items0 post stPre e.name
          hnotpost h2post, hfindPre]
        rw [hsv, hnu]
        simp only [Bool.false_eq_true, if_false]
        cases hcur : items0.find? (byName e.name) with
        | none => rw [hcur] at hnu; simp [needsUpdate] at hnu
        | some c => simp
      | true =>
        rw [runEntries_cons_some ig (fun _ => false) items0 e post stPre _
          (stepEntry_replace ig (fun _ => false) items0 stPre e t hsub hnu rfl)]
        rw [runEntries_find_untouched ig (fun _ => false) items0 post _ e.name
          hnotpost h2post]
        have htname : byName e.name t = true := by
          rw [byName_eq_true, substituteImage_metadata ig _ e.data t hsub, h2e]
        simp only
        rw [replaceFirst_find_self stPre.items e.name t htname, hsv, hnu, if_pos rfl]

/-- Re-substituting a deployment's own image into itself is the identity. -/
theorem substituteImage_self (d : V1beta2Deployment) :
    substituteImage true (some d) d = Except.ok d := by
  cases hci : createImage d.spec.template.spec.containers with
  | none => exact substituteImage_noImage d d hci
  | some img =>
    cases hcont : d.spec.template.spec.containers with
    | nil => rw [hcont] at hci; simp [createImage] at hci
    | cons c0 r =>
      have himgurl : img.url = c0.image := by
        rw [hcont, createImage_cons] at hci
        cases hci
        rfl
      rw [substituteImage_subst d d img hci c0 r hcont, himgurl,
        setFirstContainerImage_self d c0 r hcont]

/-- Substituting against an already-substituted target reproduces it. -/
theorem substituteImage_setFirst (d : V1beta2Deployment) (u : String)
    (c0 : V1Container) (r : List V1Container)
    (hcont : d.spec.template.spec.containers = c0 :: r) :
    substituteImage true (some (setFirstContainerImage d u)) d =
      Except.ok (setFirstContainerImage d u) := by
  have hci2 : createImage (setFirstContainerImage d u).spec.template.spec.containers =
      some ⟨u, codeImageName u, none⟩ := createImage_setFirst d u c0 r hcont
  rw [substituteImage_subst (setFirstContainerImage d u) d ⟨u, codeImageName u, none⟩
    hci2 c0 r hcont]

/-- Applying the same entry a second time against the state it produced is a
skip: the adjusted target is computed without crashing and its minified form
agrees with the stored deployment. -/
theorem stepEntry_second_skip (ig : Bool) (items0 items1 : List V1beta2Deployment)
    (e : SnapshotDeployment) (t₁ : V1beta2Deployment)
    (hfound : items1.find? (byName e.name) = some (storedValue items0 ig e))
    (hsub : substituteImage ig (items0.find? (byName e.name)) e.data = Except.ok t₁) :
    ∀ st, stepEntry ig (fun _ => false) items1 st e = some st := by
  intro st
  have key : ∃ t₂, substituteImage ig (some (storedValue items0 ig e)) e.data =
      Except.ok t₂ ∧ needsUpdate (some (storedValue items0 ig e)) t₂ = false := by
    cases ig with
    | false =>
      have ht₁ : t₁ = e.data := by
        rw [substituteImage_false] at hsub
        exact (Except.ok.inj hsub).symm
      have hsv : storedValue items0 false e =
          (if needsUpdate (items0.find? (byName e.name)) e.data then e.data
           else (items0.find? (byName e.name)).getD e.data) := by
        simp only [storedValue, substituteImage_false]
      cases hnu : needsUpdate (items0.find? (byName e.name)) e.data with
      | true =>
        rw [hnu] at hsv
        simp only [if_true] at hsv
        rw [hsv, substituteImage_false]
        exact ⟨e.data, rfl, needsUpdate_self e.data⟩
      | false =>
        rw [hnu] at hsv
        simp only [Bool.false_eq_true, if_false] at hsv
        cases hc : items0.find? (byName e.name) with
        | none => rw [hc] at hnu; simp [needsUpdate] at hnu
        | some c =>
          rw [hc] at hsv
          simp only [Option.getD_some] at hsv
          rw [hsv, substituteImage_false]
          refine ⟨e.data, rfl, ?_⟩
          rw [hc] at hnu
          exact hnu
    | true =>
      cases hc : items0.find? (byName e.name) with
      | none =>
        have hsv : storedValue items0 true e = e.data := by
          simp only [storedValue, hc, substituteImage_none]
          simp [needsUpdate]
        rw [hsv]
        exact ⟨e.data, substituteImage_self e.data, needsUpdate_self e.data⟩
      | some c =>
        rw [hc] at hsub
        cases hci : createImage c.spec.template.spec.containers with
        | none =>
          rw [substituteImage_noImage c e.data hci] at hsub
          have hsv : storedValue items0 true e =
              (if needsUpdate (items0.find? (byName e.name)) e.data then e.data else c) := by
            simp only [storedValue, hc, substituteImage_noImage c e.data hci,
              Option.getD_some]
          cases hnu : needsUpdate (items0.find? (byName e.name)) e.data with
          | true =>
            rw [hnu] at hsv
            simp only [if_true] at hsv
            rw [hsv]
            exact ⟨e.data, substituteImage_self e.data, needsUpdate_self e.data⟩
          | false =>
            rw [hnu] at hsv
            simp only [Bool.false_eq_true, if_false] at hsv
            rw [hsv]
            refine ⟨e.data, substituteImage_noImage c e.data hci, ?_⟩
            rw [hc] at hnu
            exact hnu
        | some img =>
          cases hcont : e.data.spec.template.spec.containers with
          | nil =>
            rw [substituteImage_crash c e.data img hci hcont] at hsub
            exact absurd hsub (by simp)
          | cons c0 r =>
            rw [substituteImage_subst c e.data img hci c0 r hcont] at hsub
            have ht₁ : t₁ = setFirstContainerImage e.data img.url :=
              (Except.ok.inj hsub).symm
            have hsv : storedValue items0 true e =
                (if needsUpdate (items0.find? (byName e.name))
                    (setFirstContainerImage e.data img.url) then
                  setFirstContainerImage e.data img.url
                 else c) := by
              simp only [storedValue, hc,
                substituteImage_subst c e.data img hci c0 r hcont, Option.getD_some]
            cases hnu : needsUpdate (items0.find? (byName e.name))
                (setFirstContainerImage e.data img.url) with
            | true =>
              rw [hnu] at hsv
              simp only [if_true] at hsv
              rw [hsv]
              exact ⟨setFirstContainerImage e.data img.url,
                substituteImage_setFirst e.data img.url c0 r hcont,
                needsUpdate_self _⟩
            | false =>
              rw [hnu] at hsv
              simp only [Bool.false_eq_true, if_false] at hsv
              rw [hsv]
              refine ⟨setFirstContainerImage e.data img.url,
                substituteImage_subst c e.data img hci c0 r hcont, ?_⟩
              rw [hc] at hnu
              exact hnu
  obtain ⟨t₂, hsub₂, hnu₂⟩ := key
  have hsub₂' : substituteImage ig (items1.find? (byName e.name)) e.data =
      Except.ok t₂ := by rw [hfound]; exact hsub₂
  have hnu₂' : needsUpdate (items1.find? (byName e.name)) t₂ = false := by
    rw [hfound]; exact hnu₂
  exact stepEntry_skip ig (fun _ => false) items1 st e t₂ hsub₂' hnu₂'

/-- A run in which every entry is a skip leaves the loop state unchanged. -/
theorem runEntries_all_skip (ig : Bool) (items1 : List V1beta2Deployment)
    (entries : List SnapshotDeployment)
    (h : ∀ e ∈ entries, ∀ st, stepEntry ig (fun _ => false) items1 st e = some st) :
    ∀ st, runEntries ig (fun _ => false) items1 entries st = (st, false) := by
  induction entries with
  | nil => intro st; rfl
  | cons e rest ih =>
    intro st
    rw [runEntries_cons_some ig (fun _ => false) items1 e rest st st
      (h e (List.mem_cons_self e rest) st)]
    exact ih (fun e' h' => h e' (List.mem_cons_of_mem e h')) st

theorem applySnapshot_crashed (state : String → List V1beta2Deployment)
    (group : ServerGroup) (snapshot : ClusterSnapshot) (ig : Bool)
    (fails : String → Bool) (now : Nat) :
    (applySnapshot state group snapshot ig fails now).crashed =
      (runEntries ig fails (state (getNamespace group)) snapshot.deployments
        ⟨state (getNamespace group), [], [], []⟩).2 := rfl

theorem applySnapshot_applied (state : String → List V1beta2Deployment)
    (group : ServerGroup) (snapshot : ClusterSnapshot) (ig : Bool)
    (fails : String → Bool) (now : Nat) :
    (applySnapshot state group snapshot ig fails now).applied =
      (runEntries ig fails (state (getNamespace group)) snapshot.deployments
        ⟨state (getNamespace group), [], [], []⟩).1.applied := rfl

theorem applySnapshot_errored (state : String → List V1beta2Deployment)
    (group : ServerGroup) (snapshot : ClusterSnapshot) (ig : Bool)
    (fails : String → Bool) (now : Nat) :
    (applySnapshot state group snapshot ig fails now).errored =
      (runEntries ig fails (state (getNamespace group)) snapshot.deployments
        ⟨state (getNamespace group), [], [], []⟩).1.errored := rfl

theorem applySnapshot_calls (state : String → List V1beta2Deployment)
    (group : ServerGroup) (snapshot : ClusterSnapshot) (ig : Bool)
    (fails : String → Bool) (now : Nat) :
    (applySnapshot state group snapshot ig fails now).calls =
      (runEntries ig fails (state (getNamespace group)) snapshot.deployments
        ⟨state (getNamespace group), [], [], []⟩).1.calls := rfl

theorem applySnapshot_finalState (state : String → List V1beta2Deployment)
    (group : ServerGroup) (snapshot : ClusterSnapshot) (ig : Bool)
    (fails : String → Bool) (now : Nat) (n : String) :
    (applySnapshot state group snapshot ig fails now).finalState n =
      (if n = getNamespace group then
        (runEntries ig fails (state (getNamespace group)) snapshot.deployments
          ⟨state (getNamespace group), [], [], []⟩).1.items
       else state n) := rfl

theorem getNamespace_none (c : String) : getNamespace ⟨c, none⟩ = "default" := rfl

/-- Claim C4: deployment minification is idempotent — for every gateway-native
deployment representation `x`, `minify (minify x) = minify x`; the minified
form keeps only the metadata identity fields (name, namespace, annotations)
and the spec, and excludes the server-assigned status. -/
theorem minifyDeployment_idempotent (d : V1beta2Deployment) :
    minifyDeployment (minifyDeployment d) = minifyDeployment d := rfl

/-- Claim C8: a `ServerGroup` whose namespace is absent is treated identically
to one whose namespace is `"default"`: `getNamespace` resolves both to
`"default"`, and `applySnapshot` — the modelled gateway operation taking a
`ServerGroup` — produces the same crash flag, applied/errored aggregates,
replace calls and final cluster state for the two groups. -/
theorem applySnapshot_absent_namespace_default
    (state : String → List V1beta2Deployment) (c : String) (snap : ClusterSnapshot)
    (ig : Bool) (fails : String → Bool) (now : Nat) :
    getNamespace ⟨c, none⟩ = "default" ∧
    getNamespace ⟨c, some "default"⟩ = "default" ∧
    (applySnapshot state ⟨c, none⟩ snap ig fails now).crashed =
      (applySnapshot state ⟨c, some "default"⟩ snap ig fails now).crashed ∧
    (applySnapshot state ⟨c, none⟩ snap ig fails now).applied =
      (applySnapshot state ⟨c, some "default"⟩ snap ig fails now).applied ∧
    (applySnapshot state ⟨c, none⟩ snap ig fails now).errored =
      (applySnapshot state ⟨c, some "default"⟩ snap ig fails now).errored ∧
    (applySnapshot state ⟨c, none⟩ snap ig fails now).calls =
      (applySnapshot state ⟨c, some "default"⟩ snap ig fails now).calls ∧
    ∀ n, (applySnapshot state ⟨c, none⟩ snap ig fails now).finalState n =
      (applySnapshot state ⟨c, some "default"⟩ snap ig fails now).finalState n := by
  have h2 : getNamespace ⟨c, some "default"⟩ = "default" := by
    show (if ("default" : String) = "" then "default" else "default") = "default"
    rw [if_neg (by decide)]
  have hg : getNamespace (⟨c, none⟩ : ServerGroup) =
      getNamespace (⟨c, some "default"⟩ : ServerGroup) :=
    (getNamespace_none c).trans h2.symm
  refine ⟨rfl, h2, ?_, ?_, ?_, ?_, ?_⟩
  · rw [applySnapshot_crashed, applySnapshot_crashed, hg]
  · rw [applySnapshot_applied, applySnapshot_applied, hg]
  · rw [applySnapshot_errored, applySnapshot_errored, hg]
  · rw [applySnapshot_calls, applySnapshot_calls, hg]
  · intro n
    rw [applySnapshot_finalState, applySnapshot_finalState, hg]

theorem applySnapshot_event_unfold (state : String → List V1beta2Deployment)
    (group : ServerGroup) (snapshot : ClusterSnapshot) (ig : Bool)
    (fails : String → Bool) (now : Nat) :
    (applySnapshot state group snapshot ig fails now).event =
      (if (runEntries ig fails (state (getNamespace group)) snapshot.deployments
            ⟨state (getNamespace group), [], [], []⟩).2 then none
       else if (runEntries ig fails (state (getNamespace group)) snapshot.deployments
            ⟨state (getNamespace group), [], [], []⟩).1.applied.length +
          (runEntries ig fails (state (getNamespace group)) snapshot.deployments
            ⟨state (getNamespace group), [], [], []⟩).1.errored.length > 0 then
        some { message := "Applied Snapshots"
               timestamp := now
               topics := ["slack"]
               description :=
                 "Applied Snapshots in " ++ group.cluster ++ " ∞ " ++
                   optionNamespaceText group.nspace
               fields := (runEntries ig fails (state (getNamespace group))
                   snapshot.deployments
                   ⟨state (getNamespace group), [], [], []⟩).1.errored.map
                     (fun v => ⟨v, "Failure"⟩) ++
                 (runEntries ig fails (state (getNamespace group)) snapshot.deployments
                   ⟨state (getNamespace group), [], [], []⟩).1.applied.map
                     (fun v => ⟨v, "Success"⟩) }
       else none) := rfl

/-- Claim C6: on a run that completes (does not raise), `applySnapshot` emits
at most one aggregated event; it emits one exactly when the batch of applied
plus errored deployments is non-empty, and that event carries one field per
errored deployment followed by one field per applied deployment.  When every
deployment was skipped or the snapshot is empty, no event is emitted. -/
theorem applySnapshot_event_aggregate (state : String → List V1beta2Deployment)
    (group : ServerGroup) (snap : ClusterSnapshot) (ig : Bool)
    (fails : String → Bool) (now : Nat)
    (h : (applySnapshot state group snap ig fails now).crashed = false) :
    ((applySnapshot state group snap ig fails now).event = none ↔
      (applySnapshot state group snap ig fails now).applied = [] ∧
      (applySnapshot state group snap ig fails now).errored = []) ∧
    (∀ ev, (applySnapshot state group snap ig fails now).event = some ev →
      ev.fields =
        (applySnapshot state group snap ig fails now).errored.map
          (fun v => (⟨v, "Failure"⟩ : EventField)) ++
        (applySnapshot state group snap ig fails now).applied.map
          (fun v => (⟨v, "Success"⟩ : EventField))) := by
  rw [applySnapshot_crashed] at h
  rw [applySnapshot_event_unfold, applySnapshot_applied, applySnapshot_errored, h]
  simp only [Bool.false_eq_true, if_false]
  by_cases hlen : (runEntries ig fails (state (getNamespace group)) snap.deployments
      ⟨state (getNamespace group), [], [], []⟩).1.applied.length +
      (runEntries ig fails (state (getNamespace group)) snap.deployments
        ⟨state (getNamespace group), [], [], []⟩).1.errored.length > 0
  · rw [if_pos hlen]
    constructor
    · constructor
      · intro hnone
        exact absurd hnone (by simp)
      · rintro ⟨ha, he⟩
        rw [ha, he] at hlen
        simp at hlen
    · intro ev hev
      have := (Option.some.inj hev).symm
      rw [this]
  · rw [if_neg hlen]
    have hboth : (runEntries ig fails (state (getNamespace group)) snap.deployments
        ⟨state (getNamespace group), [], [], []⟩).1.applied = [] ∧
        (runEntries ig fails (state (getNamespace group)) snap.deployments
          ⟨state (getNamespace group), [], [], []⟩).1.errored = [] := by
      rw [not_lt, Nat.le_zero, Nat.add_eq_zero] at hlen
      exact ⟨List.length_eq_zero.mp hlen.1, List.length_eq_zero.mp hlen.2⟩
    exact ⟨by simp [hboth.1, hboth.2], by intro ev hev; simp at hev⟩

/-- Claim C3: for a snapshot whose recorded deployment data carries at least
one container (true of every gateway-produced snapshot), `applySnapshot`
isolates failures per deployment: the call does not raise, and every entry of
the batch is attempted in order — an entry whose replace call fails is
recorded in `errored`, an entry whose replace call succeeds is recorded in
`applied`, and skipped entries are recorded in neither. -/
theorem applySnapshot_isolates_failures (state : String → List V1beta2Deployment)
    (group : ServerGroup) (snap : ClusterSnapshot) (ig : Bool)
    (fails : String → Bool) (now : Nat)
    (hc : ∀ e ∈ snap.deployments, e.data.spec.template.spec.containers ≠ []) :
    (applySnapshot state group snap ig fails now).crashed = false ∧
    (applySnapshot state group snap ig fails now).applied =
      snap.deployments.filterMap (appliedOf (state (getNamespace group)) ig fails) ∧
    (applySnapshot state group snap ig fails now).errored =
      snap.deployments.filterMap (erroredOf (state (getNamespace group)) ig fails) := by
  have hnc := runEntries_no_crash_of_containers ig fails (state (getNamespace group))
    snap.deployments hc ⟨state (getNamespace group), [], [], []⟩
  obtain ⟨ha, he, hcl⟩ := runEntries_char ig fails (state (getNamespace group))
    snap.deployments ⟨state (getNamespace group), [], [], []⟩ hnc
  refine ⟨?_, ?_, ?_⟩
  · rw [applySnapshot_crashed]
    exact hnc
  · rw [applySnapshot_applied, ha]
    simp
  · rw [applySnapshot_errored, he]
    simp

/-- Claim C2: on a completed run, `applySnapshot` issues its replace API calls
exactly for the snapshot entries whose deployment is absent from the
pre-fetched target listing or whose (image-adjusted) minified target differs
structurally from the minified current deployment (`specNeedsReplace`);
structurally equal entries are skipped.  Consequently a second apply of the
same snapshot (entry names distinct, each entry recording its own deployment
name, all replace calls succeeding) issues no API call at all and leaves the
cluster state fixed. -/
theorem applySnapshot_skip_iff_and_idempotent :
    (∀ (state : String → List V1beta2Deployment) (group : ServerGroup)
        (snap : ClusterSnapshot) (ig : Bool) (fails : String → Bool) (now : Nat),
      (applySnapshot state group snap ig fails now).crashed = false →
      (applySnapshot state group snap ig fails now).calls =
        snap.deployments.filterMap (callOf (state (getNamespace group)) ig)) ∧
    (∀ (state : String → List V1beta2Deployment) (group : ServerGroup)
        (snap : ClusterSnapshot) (ig : Bool) (now now' : Nat),
      (snap.deployments.map SnapshotDeployment.name).Nodup →
      (∀ e ∈ snap.deployments, e.data.metadata.name = some e.name) →
      (applySnapshot state group snap ig (fun _ => false) now).crashed = false →
      (applySnapshot (applySnapshot state group snap ig (fun _ => false) now).finalState
          group snap ig (fun _ => false) now').calls = [] ∧
      ∀ n, (applySnapshot
          (applySnapshot state group snap ig (fun _ => false) now).finalState
          group snap ig (fun _ => false) now').finalState n =
        (applySnapshot state group snap ig (fun _ => false) now).finalState n) := by
  constructor
  · intro state group snap ig fails now h
    rw [applySnapshot_crashed] at h
    obtain ⟨_, _, hcl⟩ := runEntries_char ig fails (state (getNamespace group))
      snap.deployments ⟨state (getNamespace group), [], [], []⟩ h
    rw [applySnapshot_calls, hcl]
    simp
  · intro state group snap ig now now' h1 h2 h3
    rw [applySnapshot_crashed] at h3
    have hfs : (applySnapshot state group snap ig (fun _ => false) now).finalState
        (getNamespace group) =
        (runEntries ig (fun _ => false) (state (getNamespace group)) snap.deployments
          ⟨state (getNamespace group), [], [], []⟩).1.items := by
      rw [applySnapshot_finalState, if_pos rfl]
    have hskip : ∀ e ∈ snap.deployments, ∀ st,
        stepEntry ig (fun _ => false)
          (runEntries ig (fun _ => false) (state (getNamespace group)) snap.deployments
            ⟨state (getNamespace group), [], [], []⟩).1.items st e = some st := by
      intro e he
      obtain ⟨t₁, hsub⟩ := runEntries_no_crash_sub ig (fun _ => false)
        (state (getNamespace group)) snap.deployments
        ⟨state (getNamespace group), [], [], []⟩ h3 e he
      have hfound := runEntries_find_processed ig (state (getNamespace group))
        snap.deployments ⟨state (getNamespace group), [], [], []⟩ rfl h1 h2 h3 e he
      exact stepEntry_second_skip ig (state (getNamespace group)) _ e t₁ hfound hsub
    have hrun2 := runEntries_all_skip ig
      (runEntries ig (fun _ => false) (state (getNamespace group)) snap.deployments
        ⟨state (getNamespace group), [], [], []⟩).1.items snap.deployments hskip
    constructor
    · rw [applySnapshot_calls, hfs, hrun2]
    · intro n
      by_cases hn : n = getNamespace group
      · rw [hn]
        conv_lhs => rw [applySnapshot_finalState]
        rw [if_pos rfl, hfs, hrun2]
      · conv_lhs => rw [applySnapshot_finalState]
        rw [if_neg hn]

/-- Invariant behind claim C1: with `ignoreImage` set, the loop never stores a
deployment carrying the name of a uniquely named current deployment with a
different image. -/
theorem runEntries_keeps_image (fails : String → Bool)
    (items0 : List V1beta2Deployment) (nd : String) (d : V1beta2Deployment)
    (img : Image) (hfind : items0.find? (byName nd) = some d)
    (himg : createImage d.spec.template.spec.containers = some img) :
    ∀ (entries : List SnapshotDeployment) (st : LoopState),
      (∀ e ∈ entries, e.data.metadata.name = some e.name) →
      (∀ x ∈ st.items, x.metadata.name = some nd →
        createImage x.spec.template.spec.containers = some img) →
      ∀ x ∈ (runEntries true fails items0 entries st).1.items,
        x.metadata.name = some nd →
        createImage x.spec.template.spec.containers = some img := by
  intro entries
  induction entries with
  | nil => intro st _ hst; simpa [runEntries] using hst
  | cons e rest ih =>
    intro st hd hst
    have hdr : ∀ e' ∈ rest, e'.data.metadata.name = some e'.name :=
      fun e' h => hd e' (List.mem_cons_of_mem e h)
    cases hsub : substituteImage true (items0.find? (byName e.name)) e.data with
    | error x =>
      rw [runEntries_cons_none true fails items0 e rest st
        (stepEntry_crash true fails items0 st e x hsub)]
      exact hst
    | ok t =>
      cases hnu : needsUpdate (items0.find? (byName e.name)) t with
      | false =>
        rw [runEntries_cons_some true fails items0 e rest st st
          (stepEntry_skip true fails items0 st e t hsub hnu)]
        exact ih st hdr hst
      | true =>
        cases hf : fails e.name with
        | true =>
          rw [runEntries_cons_some true fails items0 e rest st _
            (stepEntry_fail true fails items0 st e t hsub hnu hf)]
          exact ih _ hdr hst
        | false =>
          rw [runEntries_cons_some true fails items0 e rest st _
            (stepEntry_replace true fails items0 st e t hsub hnu hf)]
          apply ih _ hdr
          intro x hx hxn
          rcases replaceFirst_mem st.items e.name t x hx with rfl | hmem
          · have hmeta : x.metadata = e.data.metadata :=
              substituteImage_metadata true _ e.data x hsub
            have hename : e.name = nd := by
              have h1 : e.data.metadata.name = some nd := by rw [← hmeta]; exact hxn
              have h2 : e.data.metadata.name = some e.name :=
                hd e (List.mem_cons_self e rest)
              rw [h1] at h2
              injection h2 with h2'
              exact h2'.symm
            rw [hename, hfind] at hsub
            cases hcont : e.data.spec.template.spec.containers with
            | nil =>
              rw [substituteImage_crash d e.data img himg hcont] at hsub
              exact absurd hsub (by simp)
            | cons c0 r =>
              rw [substituteImage_subst d e.data img himg c0 r hcont] at hsub
              have hx' : x = setFirstContainerImage e.data img.url :=
                (Except.ok.inj hsub).symm
              rw [hx', createImage_setFirst e.data img.url c0 r hcont]
              exact congrArg some
                (createImage_shape d.spec.template.spec.containers img himg).symm
          · exact hst x hmem hxn

/-- Claim C1 (amended): with `ignoreImage` set, for a cluster state whose
deployments in the target namespace carry pairwise distinct names and a
snapshot whose entries record their own deployment name, `applySnapshot`
never changes the image of a deployment already present in the target cluster
whose pod spec has at least one container (so that its running image is
defined): the running image is substituted into the recorded target before
the comparison and the replace call, even when the snapshot records a
different image.  (For a present deployment with no containers, hence no
running image, the guard `image !== undefined` skips the substitution and the
snapshot's recorded image is applied — the counterexample to the unamended
claim.) -/
theorem applySnapshot_ignoreImage_keeps_image
    (state : String → List V1beta2Deployment) (group : ServerGroup)
    (snap : ClusterSnapshot) (fails : String → Bool) (now : Nat)
    (nd : String) (d : V1beta2Deployment) (img : Image)
    (hnod : ((state (getNamespace group)).map (fun x => x.metadata.name)).Nodup)
    (hd : ∀ e ∈ snap.deployments, e.data.metadata.name = some e.name)
    (hmem : d ∈ state (getNamespace group))
    (hname : d.metadata.name = some nd)
    (himg : createImage d.spec.template.spec.containers = some img) :
    ∀ x ∈ (applySnapshot state group snap true fails now).finalState
        (getNamespace group),
      x.metadata.name = some nd →
      createImage x.spec.template.spec.containers = some img := by
  intro x hx hxn
  rw [applySnapshot_finalState, if_pos rfl] at hx
  have hfind : (state (getNamespace group)).find? (byName nd) = some d :=
    find?_eq_of_nodup (state (getNamespace group)) d nd hnod hmem hname
  have hst : ∀ y ∈ state (getNamespace group), y.metadata.name = some nd →
      createImage y.spec.template.spec.containers = some img := by
    intro y hy hyn
    rw [eq_of_mem_name_nodup (state (getNamespace group)) y d nd hnod hy hmem hyn hname]
    exact himg
  exact runEntries_keeps_image fails (state (getNamespace group)) nd d img hfind himg
    snap.deployments ⟨state (getNamespace group), [], [], []⟩ hd hst x hx hxn

/-- Claim C1 counterexample: the claim as stated fails on a cluster whose
`api` deployment has no containers.  The deployment is present in the target
cluster with image `undefined`, yet `applySnapshot` with `ignoreImage = true`
applies the snapshot's recorded image, so the image of a present deployment
changes from none to `registry/api:v2`. -/
theorem applySnapshot_ignoreImage_counterexample :
    ((exStateNoContainers "default").find? (byName "api")).isSome = true ∧
    ((exStateNoContainers "default").find? (byName "api")).map
        (fun d => createImage d.spec.template.spec.containers) = some none ∧
    (((applySnapshot exStateNoContainers exGroup exSnap true (fun _ => false)
          0).finalState "default").find? (byName "api")).map
        (fun d => createImage d.spec.template.spec.containers) =
      some (some ⟨"registry/api:v2", "api", none⟩) := by decide

/-- Claim C1 witness: the amended theorem applied to a cluster running
`registry/api:v1` and a snapshot recording `registry/api:v2` with a different
replica count; the replaced deployment still carries the `v1` image. -/
theorem applySnapshot_ignoreImage_keeps_image_witness :
    createImage (exDeployment "api" 2
        [⟨"c", "registry/api:v1"⟩]).spec.template.spec.containers =
      some ⟨"registry/api:v1", "api", none⟩ :=
  applySnapshot_ignoreImage_keeps_image exStateV1 exGroup exSnap (fun _ => false) 0
    "api" (exDeployment "api" 1 [⟨"c", "registry/api:v1"⟩])
    ⟨"registry/api:v1", "api", none⟩
    (by decide) (by decide) (by decide) (by decide) (by decide)
    (exDeployment "api" 2 [⟨"c", "registry/api:v1"⟩]) (by decide) (by decide)

/-- Claim C2 witness: on the concrete fixture the replace-call trace equals
the per-entry characterisation, which evaluates to the single image-adjusted
replace call. -/
theorem applySnapshot_skip_iff_and_idempotent_witness :
    (applySnapshot exStateV1 exGroup exSnap true (fun _ => false) 0).calls =
      [⟨"api", exDeployment "api" 2 [⟨"c", "registry/api:v1"⟩]⟩] :=
  (applySnapshot_skip_iff_and_idempotent.1 exStateV1 exGroup exSnap true
    (fun _ => false) 0 (by decide)).trans (by decide)

/-- Claim C3 witness: in a batch where `A` fails and `B`, `C` succeed, the
call completes, reports `A` in `errored` and `B`, `C` in `applied`. -/
theorem applySnapshot_isolates_failures_witness :
    (applySnapshot exStateEmpty exGroup exSnapABC true exFailsA 0).crashed = false ∧
    (applySnapshot exStateEmpty exGroup exSnapABC true exFailsA 0).applied =
      ["Deployment B", "Deployment C"] ∧
    (applySnapshot exStateEmpty exGroup exSnapABC true exFailsA 0).errored =
      ["Deployment A"] := by
  have h := applySnapshot_isolates_failures exStateEmpty exGroup exSnapABC true
    exFailsA 0 (by decide)
  exact ⟨h.1, h.2.1.trans (by decide), h.2.2.trans (by decide)⟩

/-- Claim C6 witness: the event iff, instantiated on a completed concrete
batch. -/
theorem applySnapshot_event_aggregate_witness :
    (applySnapshot exStateV1 exGroup exSnap true (fun _ => false) 0).event = none ↔
      (applySnapshot exStateV1 exGroup exSnap true (fun _ => false) 0).applied = [] ∧
      (applySnapshot exStateV1 exGroup exSnap true (fun _ => false) 0).errored = [] :=
  (applySnapshot_event_aggregate exStateV1 exGroup exSnap true (fun _ => false) 0
    (by decide)).1

theorem splitChars_ne_nil (p : Char → Bool) (xs : List Char) : splitChars p xs ≠ [] := by
  cases xs with
  | nil => simp [splitChars]
  | cons c cs =>
    by_cases h : p c = true
    · simp [splitChars, h]
    · rw [Bool.not_eq_true] at h
      simp only [splitChars, h, Bool.false_eq_true, if_false]
      cases hs : splitChars p cs <;> simp

theorem splitChars_cons_pos (p : Char → Bool) (c : Char) (cs : List Char)
    (h : p c = true) : splitChars p (c :: cs) = [] :: splitChars p cs := by
  simp [splitChars, h]

theorem splitChars_cons_neg (p : Char → Bool) (c : Char) (cs : List Char)
    (h : p c = false) :
    splitChars p (c :: cs) =
      (c :: (splitChars p cs).headD []) :: (splitChars p cs).tail := by
  simp only [splitChars, h, Bool.false_eq_true, if_false]
  cases hs : splitChars p cs with
  | nil => exact absurd hs (splitChars_ne_nil p cs)
  | cons g gs => simp

theorem splitChars_append_noSep (p : Char → Bool) (xs ys : List Char)
    (h : ∀ c ∈ xs, p c = false) :
    splitChars p (xs ++ ys) =
      (xs ++ (splitChars p ys).headD []) :: (splitChars p ys).tail := by
  induction xs with
  | nil =>
    simp only [List.nil_append]
    cases hs : splitChars p ys with
    | nil => exact absurd hs (splitChars_ne_nil p ys)
    | cons g gs => simp
  | cons c xs ih =>
    have hc : p c = false := h c (List.mem_cons_self c xs)
    have hxs : ∀ c' ∈ xs, p c' = false := fun c' h' => h c' (List.mem_cons_of_mem c h')
    rw [List.cons_append, splitChars_cons_neg p c (xs ++ ys) hc, ih hxs]
    simp

theorem splitChars_noSep (p : Char → Bool) (xs : List Char)
    (h : ∀ c ∈ xs, p c = false) : splitChars p xs = [xs] := by
  have := splitChars_append_noSep p xs [] h
  simpa [splitChars] using this

theorem splitChars_sep_length (p : Char → Bool) (sep : Char) (xs ys : List Char)
    (h : p sep = true) : 2 ≤ (splitChars p (xs ++ sep :: ys)).length := by
  induction xs with
  | nil =>
    rw [List.nil_append, splitChars_cons_pos p sep ys h]
    cases hs : splitChars p ys with
    | nil => exact absurd hs (splitChars_ne_nil p ys)
    | cons g gs => simp [List.length_cons]
  | cons c xs ih =>
    by_cases hc : p c = true
    · rw [List.cons_append, splitChars_cons_pos p c _ hc]
      simp only [List.length_cons]
      omega
    · rw [Bool.not_eq_true] at hc
      rw [List.cons_append, splitChars_cons_neg p c _ hc]
      simp only [List.length_cons, List.length_tail]
      omega

theorem splitChars_sep_getLast (p : Char → Bool) (sep : Char) (xs ys : List Char)
    (h : p sep = true) :
    (splitChars p (xs ++ sep :: ys)).getLastD [] = (splitChars p ys).getLastD [] := by
  induction xs with
  | nil =>
    rw [List.nil_append, splitChars_cons_pos p sep ys h]
    cases hs : splitChars p ys with
    | nil => exact absurd hs (splitChars_ne_nil p ys)
    | cons g gs => rw [List.getLastD_cons]
  | cons c xs ih =>
    by_cases hc : p c = true
    · rw [List.cons_append, splitChars_cons_pos p c _ hc]
      cases hs : splitChars p (xs ++ sep :: ys) with
      | nil => exact absurd hs (splitChars_ne_nil p _)
      | cons g gs =>
        rw [List.getLastD_cons, ← hs]
        exact ih
    · rw [Bool.not_eq_true] at hc
      rw [List.cons_append, splitChars_cons_neg p c _ hc]
      have hlen := splitChars_sep_length p sep xs ys h
      cases hs : splitChars p (xs ++ sep :: ys) with
      | nil => exact absurd hs (splitChars_ne_nil p _)
      | cons g gs =>
        rw [hs] at hlen
        cases gs with
        | nil => simp at hlen
        | cons g2 gs2 =>
          simp only [List.headD_cons, List.tail_cons]
          rw [List.getLastD_cons, List.getLastD_cons]
          have := ih
          rw [hs, List.getLastD_cons, List.getLastD_cons] at this
          exact this

theorem getLastD_map_mk (l : List (List Char)) (d : List Char) :
    (l.map String.mk).getLastD (String.mk d) = String.mk (l.getLastD d) := by
  induction l generalizing d with
  | nil => rfl
  | cons g gs ih => rw [List.map_cons, List.getLastD_cons, List.getLastD_cons]; exact ih g

theorem string_nil_eq : ("" : String) = String.mk [] := rfl

theorem jsSplit_headD (p : Char → Bool) (s : String) :
    (jsSplit p s).headD "" = String.mk ((splitChars p s.data).headD []) := by
  unfold jsSplit
  cases hs : splitChars p s.data with
  | nil => exact absurd hs (splitChars_ne_nil p s.data)
  | cons g gs => simp

theorem jsSplit_getLastD (p : Char → Bool) (s : String) :
    (jsSplit p s).getLastD "" = String.mk ((splitChars p s.data).getLastD []) := by
  unfold jsSplit
  rw [string_nil_eq]
  exact getLastD_map_mk (splitChars p s.data) []

theorem isColonAt_not_slash (c : Char) (h : isColonAt c = true) : isSlash c = false := by
  rw [isColonAt, Bool.or_eq_true, beq_iff_eq, beq_iff_eq] at h
  rcases h with h | h <;> simp [isSlash, h]

theorem isSlash_slash : isSlash '/' = true := rfl

theorem isColonAt_slash : isColonAt '/' = false := rfl

/-- Claim C5 counterexample: `createImage` derives the name by truncating at
the first `:` or `@` before splitting on `/`, so for a url whose registry
part carries a port the derived name is not the url with registry/path
front part and tag tail stripped: on `localhost:5000/api:v2` the code yields
`localhost` while the spec's description yields `api`. -/
theorem createImage_name_counterexample :
    createImage [⟨"c", "localhost:5000/api:v2"⟩] =
      some ⟨"localhost:5000/api:v2", "localhost", none⟩ ∧
    specImageName "localhost:5000/api:v2" = "api" ∧
    ("localhost" : String) ≠ "api" := by decide

/-- Claim C5 (amended): for every container image url whose registry/path
front part contains no `:` or `@` — i.e. writing the url as
`front ++ "/" ++ name ++ tail` with the name free of `:`, `@` and `/` and
the tail either empty or a tag/digest tail starting with `:` or `@` and
containing no `/` — the constructed `Image` retains the full url unchanged
and has `name` equal to the url with the registry/path front part and the
digest/tag tail stripped (`specImageName`).  Urls with `:` or `@` before the
last `/` (e.g. a registry port) are excluded: there the code derives the name
from the truncation at the first `:` or `@` instead. -/
theorem createImage_name_amended (cn : String) (p n s : List Char)
    (hp : ∀ c ∈ p, isColonAt c = false)
    (hn : ∀ c ∈ n, isColonAt c = false ∧ isSlash c = false)
    (hs : s = [] ∨ ∃ c' s', s = c' :: s' ∧ isColonAt c' = true ∧
      ∀ c ∈ s', isSlash c = false) :
    createImage [⟨cn, String.mk (p ++ '/' :: (n ++ s))⟩] =
      some ⟨String.mk (p ++ '/' :: (n ++ s)), String.mk n, none⟩ ∧
    specImageName (String.mk (p ++ '/' :: (n ++ s))) = String.mk n := by
  have hn1 : ∀ c ∈ n, isColonAt c = false := fun c h => (hn c h).1
  have hn2 : ∀ c ∈ n, isSlash c = false := fun c h => (hn c h).2
  have hfree : ∀ c ∈ p ++ '/' :: n, isColonAt c = false := by
    intro c hc
    rcases List.mem_append.mp hc with h | h
    · exact hp c h
    · rcases List.mem_cons.mp h with rfl | h
      · exact isColonAt_slash
      · exact hn1 c h
  have step1 : (splitChars isColonAt (p ++ '/' :: (n ++ s))).headD [] =
      p ++ '/' :: n := by
    rcases hs with rfl | ⟨c', s', rfl, hc', _⟩
    · rw [List.append_nil]
      rw [splitChars_noSep isColonAt _ hfree]
      rfl
    · have hassoc : p ++ '/' :: (n ++ c' :: s') = (p ++ '/' :: n) ++ c' :: s' := by
        simp
      rw [hassoc, splitChars_append_noSep isColonAt _ _ hfree,
        splitChars_cons_pos isColonAt c' s' hc']
      simp
  have step2 : (splitChars isSlash (p ++ '/' :: n)).getLastD [] = n := by
    rw [splitChars_sep_getLast isSlash '/' p n isSlash_slash,
      splitChars_noSep isSlash n hn2]
    rfl
  have hcode : codeImageName (String.mk (p ++ '/' :: (n ++ s))) = String.mk n := by
    rw [codeImageName, jsSplit_headD]
    simp only [String.mk]  -- expose the data of the String.mk literal
    rw [step1, jsSplit_getLastD]
    simp only [String.mk]
    rw [step2]
  have hnoslash : ∀ c ∈ n ++ s, isSlash c = false := by
    intro c hc
    rcases List.mem_append.mp hc with h | h
    · exact hn2 c h
    · rcases hs with rfl | ⟨c', s', rfl, hc', hs'⟩
      · simp at h
      · rcases List.mem_cons.mp h with rfl | h
        · exact isColonAt_not_slash c hc'
        · exact hs' c h
  have hspec : specImageName (String.mk (p ++ '/' :: (n ++ s))) = String.mk n := by
    rw [specImageName]
    have h1 : (splitChars isSlash (String.mk (p ++ '/' :: (n ++ s))).data).getLastD [] =
        n ++ s := by
      show (splitChars isSlash (p ++ '/' :: (n ++ s))).getLastD [] = n ++ s
      rw [splitChars_sep_getLast isSlash '/' p (n ++ s) isSlash_slash,
        splitChars_noSep isSlash (n ++ s) hnoslash]
      rfl
    rw [h1]
    rcases hs with rfl | ⟨c', s', rfl, hc', _⟩
    · rw [List.append_nil, splitChars_noSep isColonAt n hn1]
      rfl
    · rw [splitChars_append_noSep isColonAt n (c' :: s') hn1,
        splitChars_cons_pos isColonAt c' s' hc']
      simp
  exact ⟨by rw [createImage_cons, hcode], hspec⟩

/-- Claim C5 witness: the amended theorem instantiated on
`registry/api:v2`, whose front part is colon- and at-free. -/
theorem createImage_name_amended_witness :
    createImage [⟨"c", String.mk ("registry".data ++ '/' :: ("api".data ++ ":v2".data))⟩] =
      some ⟨String.mk ("registry".data ++ '/' :: ("api".data ++ ":v2".data)),
        String.mk "api".data, none⟩ ∧
    specImageName (String.mk ("registry".data ++ '/' :: ("api".data ++ ":v2".data))) =
      String.mk "api".data :=
  createImage_name_amended "c" "registry".data "api".data ":v2".data
    (by decide) (by decide)
    (Or.inr ⟨':', "v2".data, by decide, by decide, by decide⟩)

theorem clustersLoop_length (namespacesQ : String → Except String (List String))
    (cs : List String) (acc : List ClusterEntry) :
    (clustersLoop namespacesQ cs acc).2.length ≤ 1 := by
  induction cs generalizing acc with
  | nil => simp [clustersLoop]
  | cons c rest ih =>
    rw [clustersLoop]
    cases namespacesQ c with
    | error e => simp
    | ok ns => exact ih _

theorem clustersLoop_ok (namespacesQ : String → Except String (List String))
    (cs : List String) (nsF : String → List String)
    (h : ∀ c ∈ cs, namespacesQ c = Except.ok (nsF c)) :
    ∀ acc, clustersLoop namespacesQ cs acc =
      (some (acc ++ cs.map (fun c => ⟨c, nsF c⟩)), []) := by
  induction cs with
  | nil => intro acc; simp [clustersLoop]
  | cons c rest ih =>
    intro acc
    rw [clustersLoop, h c (List.mem_cons_self c rest)]
    show clustersLoop namespacesQ rest (acc ++ [⟨c, nsF c⟩]) =
      (some (acc ++ (c :: rest).map (fun c' => (⟨c', nsF c'⟩ : ClusterEntry))), [])
    have hstep := ih (fun c' h' => h c' (List.mem_cons_of_mem c h')) (acc ++ [⟨c, nsF c⟩])
    rw [hstep]
    simp

theorem jobsLoop_length (schedulesQ : PipelineDescription → Except String (Option Cron))
    (ps : List PipelineDescription) (acc : List JobEntry) :
    (jobsLoop schedulesQ ps acc).2.length ≤ 1 := by
  induction ps generalizing acc with
  | nil => simp [jobsLoop]
  | cons pl rest ih =>
    rw [jobsLoop]
    cases schedulesQ pl with
    | error e => simp
    | ok sched => exact ih _

theorem jobsLoop_ok (schedulesQ : PipelineDescription → Except String (Option Cron))
    (ps : List PipelineDescription) (schedF : PipelineDescription → Option Cron)
    (h : ∀ pl ∈ ps, schedulesQ pl = Except.ok (schedF pl)) :
    ∀ acc, jobsLoop schedulesQ ps acc =
      (some (acc ++ ps.map (fun pl =>
        ⟨pl, cronLastRun (schedF pl), cronNextRun (schedF pl)⟩)), []) := by
  induction ps with
  | nil => intro acc; simp [jobsLoop]
  | cons pl rest ih =>
    intro acc
    rw [jobsLoop, h pl (List.mem_cons_self pl rest)]
    show jobsLoop schedulesQ rest
      (acc ++ [⟨pl, cronLastRun (schedF pl), cronNextRun (schedF pl)⟩]) =
      (some (acc ++ (pl :: rest).map (fun pl' =>
        (⟨pl', cronLastRun (schedF pl'), cronNextRun (schedF pl')⟩ : JobEntry))), [])
    have hstep := ih (fun pl' h' => h pl' (List.mem_cons_of_mem pl h'))
      (acc ++ [⟨pl, cronLastRun (schedF pl), cronNextRun (schedF pl)⟩])
    rw [hstep]
    simp

/-- Claim C7: the dashboard index handler collects errors per independent
sub-query and keeps rendering what succeeded.  It is a total function (it
never raises); its error list is the concatenation of the per-block error
lists, each block contributing at most one message; and whenever a sub-query
(clusters with all its namespaces, pipelines with all their schedules, or
images) fully succeeds, its results appear in the returned view and it
contributes no error message. -/
theorem index_error_isolation (clustersQ : Except String (List String))
    (namespacesQ : String → Except String (List String))
    (pipelinesQ : Except String (List PipelineDescription))
    (schedulesQ : PipelineDescription → Except String (Option Cron))
    (imagesQ : Except String (List String)) :
    (index clustersQ namespacesQ pipelinesQ schedulesQ imagesQ).errors =
      (clustersSection clustersQ namespacesQ).2 ++
        (jobsSection pipelinesQ schedulesQ).2 ++ (imagesSection imagesQ).2 ∧
    (clustersSection clustersQ namespacesQ).2.length ≤ 1 ∧
    (jobsSection pipelinesQ schedulesQ).2.length ≤ 1 ∧
    (imagesSection imagesQ).2.length ≤ 1 ∧
    (∀ (cs : List String) (nsF : String → List String), clustersQ = Except.ok cs →
      (∀ c ∈ cs, namespacesQ c = Except.ok (nsF c)) →
      (index clustersQ namespacesQ pipelinesQ schedulesQ imagesQ).clusters =
        some (cs.map (fun c => ⟨c, nsF c⟩)) ∧
      (clustersSection clustersQ namespacesQ).2 = []) ∧
    (∀ (ps : List PipelineDescription) (schedF : PipelineDescription → Option Cron),
      pipelinesQ = Except.ok ps →
      (∀ pl ∈ ps, schedulesQ pl = Except.ok (schedF pl)) →
      (index clustersQ namespacesQ pipelinesQ schedulesQ imagesQ).jobs =
        some (ps.map (fun pl =>
          ⟨pl, cronLastRun (schedF pl), cronNextRun (schedF pl)⟩)) ∧
      (jobsSection pipelinesQ schedulesQ).2 = []) ∧
    (∀ (l : List String), imagesQ = Except.ok l →
      (index clustersQ namespacesQ pipelinesQ schedulesQ imagesQ).images = some l ∧
      (imagesSection imagesQ).2 = []) := by
  refine ⟨rfl, ?_, ?_, ?_, ?_, ?_, ?_⟩
  · cases clustersQ with
    | error e => simp [clustersSection]
    | ok cs => simpa [clustersSection] using clustersLoop_length namespacesQ cs []
  · cases pipelinesQ with
    | error e => simp [jobsSection]
    | ok ps => simpa [jobsSection] using jobsLoop_length schedulesQ ps []
  · cases imagesQ with
    | error e => simp [imagesSection]
    | ok l => simp [imagesSection]
  · intro cs nsF hcq hns
    have hsec : clustersSection clustersQ namespacesQ =
        (some (cs.map (fun c => ⟨c, nsF c⟩)), []) := by
      rw [hcq]
      simp only [clustersSection]
      rw [clustersLoop_ok namespacesQ cs nsF hns []]
      simp
    constructor
    · show (clustersSection clustersQ namespacesQ).1 = _
      rw [hsec]
    · rw [hsec]
  · intro ps schedF hpq hsch
    have hsec : jobsSection pipelinesQ schedulesQ =
        (some (ps.map (fun pl =>
          ⟨pl, cronLastRun (schedF pl), cronNextRun (schedF pl)⟩)), []) := by
      rw [hpq]
      simp only [jobsSection]
      rw [jobsLoop_ok schedulesQ ps schedF hsch []]
      simp
    constructor
    · show (jobsSection pipelinesQ schedulesQ).1 = _
      rw [hsec]
    · rw [hsec]
  · intro l hiq
    have hsec : imagesSection imagesQ = (some l, []) := by
      rw [hiq]
      simp [imagesSection]
    constructor
    · show (imagesSection imagesQ).1 = _
      rw [hsec]
    · rw [hsec]

/-- Claim C7 witness: with the pipelines query failing but clusters and
images succeeding, the handler still returns the clusters and images results
and contributes no clusters/images error message. -/
theorem index_error_isolation_witness :
    ((index (Except.ok ["c1"]) (fun _ => Except.ok ["ns"]) (Except.error "boom")
        (fun _ => Except.ok none) (Except.ok ["img"])).clusters =
      some [⟨"c1", ["ns"]⟩] ∧
      (clustersSection (Except.ok ["c1"]) (fun _ => Except.ok ["ns"])).2 = []) ∧
    ((index (Except.ok ["c1"]) (fun _ => Except.ok ["ns"]) (Except.error "boom")
        (fun _ => Except.ok none) (Except.ok ["img"])).images = some ["img"] ∧
      (imagesSection (Except.ok ["img"])).2 = []) :=
  ⟨(index_error_isolation (Except.ok ["c1"]) (fun _ => Except.ok ["ns"])
      (Except.error "boom") (fun _ => Except.ok none)
      (Except.ok ["img"])).2.2.2.2.1 ["c1"] (fun _ => ["ns"]) rfl (fun _ _ => rfl),
   (index_error_isolation (Except.ok ["c1"]) (fun _ => Except.ok ["ns"])
      (Except.error "boom") (fun _ => Except.ok none)
      (Except.ok ["img"])).2.2.2.2.2.2 ["img"] rfl⟩

/-- Claim C10: when an allowed-namespaces list is configured, `namespaces`
returns only namespaces contained in it; when none is configured it returns
every namespace reported by the cluster, unchanged. -/
theorem namespaces_allowed_filter (reported : List String) :
    (∀ l ns, ns ∈ namespacesOf (some l) reported → ns ∈ l) ∧
    namespacesOf none reported = reported := by
  constructor
  · intro l ns hmem
    rw [namespacesOf] at hmem
    have hall := List.of_mem_filter hmem
    rw [isNamespaceAllowed] at hall
    obtain ⟨x, hx⟩ := Option.isSome_iff_exists.mp hall
    have hxl := List.mem_of_find?_eq_some hx
    have hxe : x = ns := by simpa using List.find?_some hx
    rw [← hxe]
    exact hxl
  · rw [namespacesOf]
    simp [isNamespaceAllowed]

/-- Claim C10 witness: with allowed list `["ns1", "ns2"]` and reported
namespaces `["ns1", "ns3"]`, the returned namespace `ns1` is allowed. -/
theorem namespaces_allowed_filter_witness : ("ns1" : String) ∈ ["ns1", "ns2"] :=
  (namespaces_allowed_filter ["ns1", "ns3"]).1 ["ns1", "ns2"] "ns1" (by decide)

end Spacegun

